import Mathlib

/-!
kubevirt: the VM reconciler of virt-controller and the bootstrap of virt-handler

A shallow embedding of

* `pkg/virt-controller/watch/vm.go`: `processVM`, `OnAdd`, `OnUpdate`, `OnDelete`;
* `cmd/virt-handler/virt-handler.go`: the bootstrapping section of `main`.

Go values are Lean values (the deep copy of `processVM` is value semantics).
The collaborators (`VMService`, the REST client) are functions over an
arbitrary world state `σ`, so that they may answer differently from one call
to the next.  Every collaborator call and every log record is appended to the
result, in program order.
-/

namespace Kubevirt

/-! ## Data model -/

/-- Go `error` values that are not nil.  The only dynamic type that the code
tells apart is `*errors.StatusError`, through its `Status().Reason`. -/
inductive GoError where
  | StatusError (reason : String) (message : String)
  | Other (message : String)
  deriving DecidableEq, Repr

/-- The constant `metav1.StatusReasonNotFound`. -/
def StatusReasonNotFound : String := "NotFound"

/-- The constant `metav1.StatusReasonConflict`. -/
def StatusReasonConflict : String := "Conflict"

/-- The struct `cache.ErrRequeue`: a requeue result wrapping an `error`,
which may be nil. -/
structure ErrRequeue where
  Err : Option GoError
  deriving DecidableEq, Repr

/-- The device section of a domain specification; `Rest` stands for the
fields this code never touches. -/
structure Devices where
  Emulator : String
  Rest : List (String × String)
  deriving DecidableEq, Repr

/-- The struct `v1.DomainSpec`; `Rest` stands for the fields this code never
touches. -/
structure DomainSpec where
  Name : String
  UUID : String
  Devices : Devices
  Rest : List (String × String)
  deriving DecidableEq, Repr

/-- The part of `ObjectMeta` the code reads. -/
structure ObjectMeta where
  Name : String
  Namespace : String
  UID : String
  Labels : List (String × String)
  deriving DecidableEq, Repr

/-- The struct `v1.VMSpec`: the domain specification is a pointer, nil or not. -/
structure VMSpec where
  Domain : Option DomainSpec
  deriving DecidableEq, Repr

/-- The struct `v1.VMStatus`. -/
structure VMStatus where
  Phase : String
  deriving DecidableEq, Repr

/-- The struct `v1.VM`. -/
structure VM where
  ObjectMeta : ObjectMeta
  Spec : VMSpec
  Status : VMStatus
  deriving DecidableEq, Repr

/-- A pod, as far as the code looks at it. -/
structure Pod where
  ObjectMeta : ObjectMeta
  deriving DecidableEq, Repr

/-- The struct `PodList`. -/
structure PodList where
  Items : List Pod
  deriving DecidableEq, Repr

/-- Modelled from the spec: the constant `v1.Scheduling` of `pkg/api/v1`
(not among the sources), the phase named `Scheduling`. -/
def Scheduling : String := "Scheduling"

/-- The constant `kubeapi.NamespaceDefault`. -/
def NamespaceDefault : String := "default"

/-- Indexing of a Go `map[string]string`: the zero value when the key is absent. -/
def mapIndex (m : List (String × String)) (k : String) : String :=
  match m.lookup k with
  | some v => v
  | none => ""

/-! ## Collaborators, calls and logs -/

/-- One call to a collaborator. -/
inductive Call where
  | StartVM (vm : VM)
  | GetRunningPods (vm : VM)
  | DeleteVM (vm : VM)
  | Put (resource : String) (name : String) (ns : String) (body : VM)
  deriving DecidableEq, Repr

/-- The records written to the logger. -/
inductive LogMsg where
  | DefiningTargetPod
  | GetRunningPodsFailed (reason : GoError)
  | FoundOrphanPodForVM (pod : String)
  | FoundOrphanPodForDeletedVM (pod : String)
  | DeletingOrphanedPodFailed (pod : String) (reason : GoError)
  | UpdatingToSchedulingFailed (reason : GoError)
  | HandingOverSucceeded
  | DeletingTargetPodFailed (reason : GoError)
  | DeletingTargetPodSucceeded
  deriving DecidableEq, Repr

/-- The collaborators of the handler: `VMService`, the REST client, and
`v1.NewMinimalDomainSpec`, each a function of the world state. -/
structure Env (σ : Type) where
  NewMinimalDomainSpec : String → DomainSpec
  StartVM : σ → VM → σ × Option GoError
  GetRunningPods : σ → VM → σ × Except GoError PodList
  DeleteVM : σ → VM → σ × Option GoError
  Put : σ → String → String → String → VM → σ × Option GoError

/-- What one handler invocation did: the world it left, the collaborator
calls and log records in order, and the returned `error` (nil is `none`). -/
structure Outcome (σ : Type) where
  world : σ
  calls : List Call
  logs : List LogMsg
  ret : Option ErrRequeue

/-- How the loop over the pods ends: by a `return` inside the body, or by
running to the end with the loop's `err` variable as it then stands. -/
inductive LoopExit where
  | Return (e : ErrRequeue)
  | Done (err : Option GoError)
  deriving DecidableEq, Repr

/-! ## `processVM` -/

/-- Lines 68 to 74: the defaulting of the domain specification. -/
def defaultDomain {σ : Type} (env : Env σ) (vm : VM) : VM :=
  let spec : DomainSpec :=
    match vm.Spec.Domain with
    | none => env.NewMinimalDomainSpec vm.ObjectMeta.Name
    | some d => d
  let spec := { spec with UUID := vm.ObjectMeta.UID }
  let spec := { spec with Devices := { spec.Devices with Emulator := "/usr/local/bin/qemu-x86_64" } }
  let spec := { spec with Name := vm.ObjectMeta.Name }
  { vm with Spec := { vm.Spec with Domain := some spec } }

/-- Lines 85 to 106: the loop over `pl.Items`.  `err` is the variable declared
at line 79; both branches assign it the answer of `DeleteVM`. -/
def deletePods {σ : Type} (env : Env σ) (vm : VM) :
    List Pod → σ → List Call → List LogMsg → Option GoError →
      σ × List Call × List LogMsg × LoopExit
  | [], w, calls, logs, err => (w, calls, logs, LoopExit.Done err)
  | p :: ps, w, calls, logs, _ =>
    if mapIndex p.ObjectMeta.Labels "kubevirt.io/vmUID" = vm.ObjectMeta.UID then
      let logs := logs ++ [LogMsg.FoundOrphanPodForVM p.ObjectMeta.Name]
      let r := env.DeleteVM w vm
      let calls := calls ++ [Call.DeleteVM vm]
      match r.2 with
      | some e =>
        (r.1, calls, logs ++ [LogMsg.DeletingOrphanedPodFailed p.ObjectMeta.Name e],
          LoopExit.Return { Err := some e })
      | none => deletePods env vm ps r.1 calls logs r.2
    else
      let logs := logs ++ [LogMsg.FoundOrphanPodForDeletedVM p.ObjectMeta.Name]
      let r := env.DeleteVM w vm
      let calls := calls ++ [Call.DeleteVM vm]
      match r.2 with
      | some e =>
        (r.1, calls, logs ++ [LogMsg.DeletingOrphanedPodFailed p.ObjectMeta.Name e],
          LoopExit.Return { Err := some e })
      | none => deletePods env vm ps r.1 calls logs r.2

/-- Lines 78 to 107: the body entered when `StartVM` answered an error.  The
`err` returned at line 107 is the one declared at line 79 (by `pl, err :=`),
not the error of `StartVM`. -/
def cleanup {σ : Type} (env : Env σ) (vm : VM) (w : σ) (calls : List Call) : Outcome σ :=
  let logs := [LogMsg.DefiningTargetPod]
  let r := env.GetRunningPods w vm
  let calls := calls ++ [Call.GetRunningPods vm]
  match r.2 with
  | Except.error err =>
    { world := r.1, calls := calls, logs := logs ++ [LogMsg.GetRunningPodsFailed err],
      ret := some { Err := some err } }
  | Except.ok pl =>
    match deletePods env vm pl.Items r.1 calls logs none with
    | (w, calls, logs, LoopExit.Return e) =>
      { world := w, calls := calls, logs := logs, ret := some e }
    | (w, calls, logs, LoopExit.Done err) =>
      { world := w, calls := calls, logs := logs, ret := some { Err := err } }

/-- Lines 119 to 132: the phase stamp and the write of the VM. -/
def stampPhase {σ : Type} (env : Env σ) (vm : VM) (w : σ) (calls : List Call) : Outcome σ :=
  let vm := { vm with Status := { vm.Status with Phase := Scheduling } }
  let r := env.Put w "vms" vm.ObjectMeta.Name NamespaceDefault vm
  let calls := calls ++ [Call.Put "vms" vm.ObjectMeta.Name NamespaceDefault vm]
  match r.2 with
  | some err =>
    let logs := [LogMsg.UpdatingToSchedulingFailed err]
    match err with
    | GoError.StatusError reason _ =>
      if reason = StatusReasonNotFound ∨ reason = StatusReasonConflict then
        { world := r.1, calls := calls, logs := logs, ret := none }
      else
        { world := r.1, calls := calls, logs := logs, ret := some { Err := some err } }
    | GoError.Other _ =>
      { world := r.1, calls := calls, logs := logs, ret := some { Err := some err } }
  | none =>
    { world := r.1, calls := calls, logs := [LogMsg.HandingOverSucceeded], ret := none }

/-- The function `processVM`. -/
def processVM {σ : Type} (env : Env σ) (obj : VM) (w : σ) : Outcome σ :=
  if obj.Status.Phase = "" then
    let vm := defaultDomain env obj
    let r := env.StartVM w vm
    let calls := [Call.StartVM vm]
    match r.2 with
    | some _ => cleanup env vm r.1 calls
    | none => stampPhase env vm r.1 calls
  else
    { world := w, calls := [], logs := [], ret := none }

/-- The method `OnAdd`. -/
def OnAdd {σ : Type} (env : Env σ) (obj : VM) (w : σ) : Outcome σ :=
  processVM env obj w

/-- The method `OnUpdate`. -/
def OnUpdate {σ : Type} (env : Env σ) (_oldObj newObj : VM) (w : σ) : Outcome σ :=
  processVM env newObj w

/-- The method `OnDelete`. -/
def OnDelete {σ : Type} (env : Env σ) (obj : VM) (w : σ) : Outcome σ :=
  let r := env.DeleteVM w obj
  match r.2 with
  | some err =>
    { world := r.1, calls := [Call.DeleteVM obj], logs := [LogMsg.DeletingTargetPodFailed err],
      ret := some { Err := some err } }
  | none =>
    { world := r.1, calls := [Call.DeleteVM obj], logs := [LogMsg.DeletingTargetPodSucceeded],
      ret := none }

/-! ## Reading an outcome -/

/-- The world in which the `k`-th call of `DeleteVM` (counted from 0) is made,
when the first one is made in `w`. -/
def worldAfterDeletes {σ : Type} (env : Env σ) (vm : VM) : Nat → σ → σ
  | 0, w => w
  | k + 1, w => worldAfterDeletes env vm k (env.DeleteVM w vm).1

/-- Whether a call is a write of the VM resource to the cluster API. -/
def Call.isPut : Call → Bool
  | Call.Put _ _ _ _ => true
  | _ => false

/-- The environment `env` with the list of `GetRunningPods` replaced by `pods`. -/
def withPods {σ : Type} (env : Env σ) (pods : List Pod) : Env σ :=
  { env with
    GetRunningPods := fun w vm => ((env.GetRunningPods w vm).1, Except.ok { Items := pods }) }

/-! ## The bootstrapping of virt-handler -/

/-- The struct `libvirt.Domain`, as far as `main` looks at it. -/
structure Domain where
  ObjectMeta : ObjectMeta
  deriving DecidableEq, Repr

/-- Modelled from the spec: the VM store returned by
`virthandler.NewVMController` (not among the sources), a mirror keyed by
resource identity that never holds two entries with the same key. -/
structure Store where
  items : List (String × VM)
  deriving DecidableEq, Repr

/-- Modelled from the spec: the write of one cache entry, last writer wins. -/
def upsert (k : String) (v : VM) : List (String × VM) → List (String × VM)
  | [] => [(k, v)]
  | e :: rest => if e.1 = k then (k, v) :: rest else e :: upsert k v rest

/-- Modelled from the spec: `Add` of the VM store.  The key comes from the
store's key function, which may answer an error; the object is then not stored. -/
def Store.Add (keyFunc : VM → Except GoError String) (s : Store) (obj : VM) :
    Store × Option GoError :=
  match keyFunc obj with
  | Except.error e => (s, some e)
  | Except.ok k => ({ items := upsert k obj s.items }, none)

/-- Modelled from the spec: the current entries of the store. -/
def Store.List (s : Store) : List VM :=
  s.items.map Prod.snd

/-- The steps of the bootstrapping section that act on the caches and the
controllers. -/
inductive BootEvent where
  | RunDomainCache
  | WaitForCacheSync
  | CloseStopWarmup
  | VMStoreAdd (vm : VM)
  | RunDomainController
  | RunVMController
  deriving DecidableEq, Repr

/-- The VM store and the steps taken so far. -/
structure BootState where
  vmStore : Store
  events : List BootEvent
  deriving DecidableEq, Repr

/-- Lines 100 to 103 of `main`: the warm-up of the domain cache. -/
def warmup (s : BootState) : BootState :=
  { s with events := s.events ++
      [BootEvent.RunDomainCache, BootEvent.WaitForCacheSync, BootEvent.CloseStopWarmup] }

/-- Lines 106 to 109 of `main`: the loop over `domainCache.GetStore().List()`.
The error answered by `vmStore.Add` is dropped, as in the source. -/
def seedVMStore (NewVMReferenceFromName : String → VM)
    (keyFunc : VM → Except GoError String) : List Domain → BootState → BootState
  | [], s => s
  | d :: ds, s =>
    let ref := NewVMReferenceFromName d.ObjectMeta.Name
    seedVMStore NewVMReferenceFromName keyFunc ds
      { vmStore := (s.vmStore.Add keyFunc ref).1,
        events := s.events ++ [BootEvent.VMStoreAdd ref] }

/-- Lines 112 to 114 of `main`: the two controllers are started. -/
def runControllers (s : BootState) : BootState :=
  { s with events := s.events ++ [BootEvent.RunDomainController, BootEvent.RunVMController] }

/-- Lines 96 to 114 of `main`, `domains` being the list the synced domain
cache answers. -/
def bootstrapping (NewVMReferenceFromName : String → VM)
    (keyFunc : VM → Except GoError String) (domains : List Domain) (s : BootState) :
    BootState :=
  runControllers (seedVMStore NewVMReferenceFromName keyFunc domains (warmup s))

/-! ## Concrete inputs -/

/-- A minimal domain specification, for the concrete inputs. -/
def exMinimalDomainSpec (name : String) : DomainSpec :=
  { Name := name, UUID := "", Devices := { Emulator := "", Rest := [] }, Rest := [("type", "qemu")] }

/-- The VM `web-1` with UID `abc`, empty phase and no domain specification. -/
def exVM : VM :=
  { ObjectMeta := { Name := "web-1", Namespace := "default", UID := "abc", Labels := [] },
    Spec := { Domain := none },
    Status := { Phase := "" } }

/-- The VM `web-1` with a domain specification of its own. -/
def exVMWithDomain : VM :=
  { exVM with
    Spec := { Domain := some { Name := "other", UUID := "zzz",
                               Devices := { Emulator := "/bin/kvm", Rest := [("disk", "vda")] },
                               Rest := [("memory", "64")] } } }

/-- The VM `web-1` already in phase `Scheduling`. -/
def exVMScheduling : VM :=
  { exVM with Status := { Phase := Scheduling } }

/-- A pod left over by `web-1` itself: its label is the UID `abc`. -/
def exLeftoverPod : Pod :=
  { ObjectMeta := { Name := "virt-launcher-web-1-a", Namespace := "default", UID := "p1",
                    Labels := [("kubevirt.io/vmUID", "abc")] } }

/-- A pod of an older VM of the same name: its label is the UID `old`. -/
def exOrphanPod : Pod :=
  { ObjectMeta := { Name := "virt-launcher-web-1-b", Namespace := "default", UID := "p2",
                    Labels := [("kubevirt.io/vmUID", "old")] } }

/-- An environment over a counter of the `DeleteVM` calls made.  `StartVM`
answers `start`, `GetRunningPods` answers `pods`, the `DeleteVM` call number
`failAt` answers an error, and the write answers `put`. -/
def exEnv (start : Option GoError) (pods : Except GoError PodList) (failAt : Option Nat)
    (put : Option GoError) : Env Nat :=
  { NewMinimalDomainSpec := exMinimalDomainSpec,
    StartVM := fun w _ => (w, start),
    GetRunningPods := fun w _ => (w, pods),
    DeleteVM := fun w _ =>
      (w + 1, if failAt = some w then some (GoError.Other "delete failed") else none),
    Put := fun w _ _ _ _ => (w, put) }

/-- A key function for the concrete inputs: the namespace and the name. -/
def exKeyFunc (vm : VM) : Except GoError String :=
  Except.ok (vm.ObjectMeta.Namespace ++ "/" ++ vm.ObjectMeta.Name)

/-- A reference built from a name, for the concrete inputs. -/
def exNewVMReferenceFromName (name : String) : VM :=
  { ObjectMeta := { Name := name, Namespace := "default", UID := "", Labels := [] },
    Spec := { Domain := none },
    Status := { Phase := "" } }

/-- The domain named `name`, for the concrete inputs. -/
def exDomain (name : String) : Domain :=
  { ObjectMeta := { Name := name, Namespace := "default", UID := "", Labels := [] } }

/-! ## Lemmas on the loop over the pods -/


/-- One turn of the loop when `DeleteVM` answers nil: the loop goes on with
the remaining pods, whatever the label of the pod. -/
theorem deletePods_cons_ok {σ : Type} (env : Env σ) (vm : VM) (p : Pod) (ps : List Pod)
    (w : σ) (calls : List Call) (logs : List LogMsg) (err : Option GoError)
    (h : (env.DeleteVM w vm).2 = none) :
    ∃ logs2, deletePods env vm (p :: ps) w calls logs err =
      deletePods env vm ps (env.DeleteVM w vm).1 (calls ++ [Call.DeleteVM vm]) logs2 none := by
  by_cases hl : mapIndex p.ObjectMeta.Labels "kubevirt.io/vmUID" = vm.ObjectMeta.UID
  · exact ⟨logs ++ [LogMsg.FoundOrphanPodForVM p.ObjectMeta.Name], by simp [deletePods, hl, h]⟩
  · exact ⟨logs ++ [LogMsg.FoundOrphanPodForDeletedVM p.ObjectMeta.Name],
      by simp [deletePods, hl, h]⟩

/-- One turn of the loop when `DeleteVM` answers an error: the loop returns a
requeue of that error, whatever the label of the pod. -/
theorem deletePods_cons_fail {σ : Type} (env : Env σ) (vm : VM) (p : Pod) (ps : List Pod)
    (w : σ) (calls : List Call) (logs : List LogMsg) (err : Option GoError) (e : GoError)
    (h : (env.DeleteVM w vm).2 = some e) :
    ∃ logs2, deletePods env vm (p :: ps) w calls logs err =
      ((env.DeleteVM w vm).1, calls ++ [Call.DeleteVM vm], logs2,
        LoopExit.Return { Err := some e }) := by
  by_cases hl : mapIndex p.ObjectMeta.Labels "kubevirt.io/vmUID" = vm.ObjectMeta.UID
  · exact ⟨logs ++ [LogMsg.FoundOrphanPodForVM p.ObjectMeta.Name,
      LogMsg.DeletingOrphanedPodFailed p.ObjectMeta.Name e], by simp [deletePods, hl, h]⟩
  · exact ⟨logs ++ [LogMsg.FoundOrphanPodForDeletedVM p.ObjectMeta.Name,
      LogMsg.DeletingOrphanedPodFailed p.ObjectMeta.Name e], by simp [deletePods, hl, h]⟩

/-- When every `DeleteVM` call answers nil the loop makes one call per pod and
runs to its end; the `err` it leaves is nil as soon as there was a pod. -/
theorem deletePods_all_ok {σ : Type} (env : Env σ) (vm : VM) :
    ∀ (pods : List Pod) (w : σ) (calls : List Call) (logs : List LogMsg)
      (err : Option GoError),
      (∀ i, i < pods.length → (env.DeleteVM (worldAfterDeletes env vm i w) vm).2 = none) →
      (deletePods env vm pods w calls logs err).1 = worldAfterDeletes env vm pods.length w ∧
      (deletePods env vm pods w calls logs err).2.1 =
        calls ++ List.replicate pods.length (Call.DeleteVM vm) ∧
      (deletePods env vm pods w calls logs err).2.2.2 =
        LoopExit.Done (if pods.length = 0 then err else none) := by
  intro pods
  induction pods with
  | nil => intro w calls logs err _; simp [deletePods, worldAfterDeletes]
  | cons p ps ih =>
    intro w calls logs err h
    have h0 : (env.DeleteVM w vm).2 = none := h 0 (by simp)
    obtain ⟨logs2, hstep⟩ := deletePods_cons_ok env vm p ps w calls logs err h0
    have hrest : ∀ i, i < ps.length →
        (env.DeleteVM (worldAfterDeletes env vm i (env.DeleteVM w vm).1) vm).2 = none := by
      intro i hi
      exact h (i + 1) (by simpa using hi)
    obtain ⟨hw, hc, hx⟩ := ih (env.DeleteVM w vm).1 (calls ++ [Call.DeleteVM vm]) logs2 none hrest
    rw [hstep]
    refine ⟨?_, ?_, ?_⟩
    · rw [hw]; rfl
    · rw [hc]; simp [List.replicate_succ]
    · rw [hx]; simp

/-- When the `DeleteVM` call number `k` is the first to answer an error, the
loop returns a requeue of that error after `k + 1` calls. -/
theorem deletePods_fail_at {σ : Type} (env : Env σ) (vm : VM) (e : GoError) :
    ∀ (pods : List Pod) (k : Nat) (w : σ) (calls : List Call) (logs : List LogMsg)
      (err : Option GoError),
      k < pods.length →
      (∀ i, i < k → (env.DeleteVM (worldAfterDeletes env vm i w) vm).2 = none) →
      (env.DeleteVM (worldAfterDeletes env vm k w) vm).2 = some e →
      (deletePods env vm pods w calls logs err).1 = worldAfterDeletes env vm (k + 1) w ∧
      (deletePods env vm pods w calls logs err).2.1 =
        calls ++ List.replicate (k + 1) (Call.DeleteVM vm) ∧
      (deletePods env vm pods w calls logs err).2.2.2 = LoopExit.Return { Err := some e } := by
  intro pods
  induction pods with
  | nil => intro k w calls logs err hk; simp at hk
  | cons p ps ih =>
    intro k w calls logs err hk hok hfail
    cases k with
    | zero =>
      obtain ⟨logs2, hstep⟩ := deletePods_cons_fail env vm p ps w calls logs err e hfail
      rw [hstep]
      exact ⟨rfl, by simp, rfl⟩
    | succ k =>
      have h0 : (env.DeleteVM w vm).2 = none := hok 0 (by simp)
      obtain ⟨logs2, hstep⟩ := deletePods_cons_ok env vm p ps w calls logs err h0
      have hrest : ∀ i, i < k →
          (env.DeleteVM (worldAfterDeletes env vm i (env.DeleteVM w vm).1) vm).2 = none := by
        intro i hi
        exact hok (i + 1) (by omega)
      obtain ⟨hw, hc, hx⟩ := ih k (env.DeleteVM w vm).1 (calls ++ [Call.DeleteVM vm]) logs2 none
        (by simpa using hk) hrest hfail
      rw [hstep]
      refine ⟨?_, ?_, hx⟩
      · rw [hw]; rfl
      · rw [hc]; simp [List.replicate_succ]

/-- The world, the calls and the exit of the loop depend on the number of
pods only: neither on their labels nor on their names. -/
theorem deletePods_length_only {σ : Type} (env : Env σ) (vm : VM) :
    ∀ (pods pods2 : List Pod) (w : σ) (calls : List Call) (logs logs2 : List LogMsg)
      (err : Option GoError),
      pods.length = pods2.length →
      (deletePods env vm pods w calls logs err).1 =
        (deletePods env vm pods2 w calls logs2 err).1 ∧
      (deletePods env vm pods w calls logs err).2.1 =
        (deletePods env vm pods2 w calls logs2 err).2.1 ∧
      (deletePods env vm pods w calls logs err).2.2.2 =
        (deletePods env vm pods2 w calls logs2 err).2.2.2 := by
  intro pods
  induction pods with
  | nil =>
    intro pods2 w calls logs logs2 err hlen
    cases pods2 with
    | nil => simp [deletePods]
    | cons q qs => simp at hlen
  | cons p ps ih =>
    intro pods2 w calls logs logs2 err hlen
    cases pods2 with
    | nil => simp at hlen
    | cons q qs =>
      have hlen2 : ps.length = qs.length := by simpa using hlen
      cases hd : (env.DeleteVM w vm).2 with
      | none =>
        obtain ⟨l1, h1⟩ := deletePods_cons_ok env vm p ps w calls logs err hd
        obtain ⟨l2, h2⟩ := deletePods_cons_ok env vm q qs w calls logs2 err hd
        rw [h1, h2]
        exact ih qs _ _ l1 l2 none hlen2
      | some e =>
        obtain ⟨l1, h1⟩ := deletePods_cons_fail env vm p ps w calls logs err e hd
        obtain ⟨l2, h2⟩ := deletePods_cons_fail env vm q qs w calls logs2 err e hd
        rw [h1, h2]
        exact ⟨rfl, rfl, rfl⟩

/-- The loop only ever adds `DeleteVM` calls, at most one per pod. -/
theorem deletePods_calls {σ : Type} (env : Env σ) (vm : VM) :
    ∀ (pods : List Pod) (w : σ) (calls : List Call) (logs : List LogMsg)
      (err : Option GoError),
      ∃ m, m ≤ pods.length ∧
        (deletePods env vm pods w calls logs err).2.1 =
          calls ++ List.replicate m (Call.DeleteVM vm) := by
  intro pods
  induction pods with
  | nil => intro w calls logs err; exact ⟨0, by simp, by simp [deletePods]⟩
  | cons p ps ih =>
    intro w calls logs err
    cases hd : (env.DeleteVM w vm).2 with
    | none =>
      obtain ⟨l1, h1⟩ := deletePods_cons_ok env vm p ps w calls logs err hd
      obtain ⟨m, hm, hc⟩ := ih (env.DeleteVM w vm).1 (calls ++ [Call.DeleteVM vm]) l1 none
      refine ⟨m + 1, by simpa using hm, ?_⟩
      rw [h1, hc]; simp [List.replicate_succ]
    | some e =>
      obtain ⟨l1, h1⟩ := deletePods_cons_fail env vm p ps w calls logs err e hd
      exact ⟨1, by simp, by rw [h1]; simp⟩


/-! ## Lemmas on the two branches of `processVM` -/

/-- With an empty phase and a failed `StartVM`, `processVM` is the cleanup. -/
theorem processVM_start_failed {σ : Type} (env : Env σ) (obj : VM) (w : σ) (e : GoError)
    (hp : obj.Status.Phase = "")
    (hs : (env.StartVM w (defaultDomain env obj)).2 = some e) :
    processVM env obj w =
      cleanup env (defaultDomain env obj) (env.StartVM w (defaultDomain env obj)).1
        [Call.StartVM (defaultDomain env obj)] := by
  simp [processVM, hp, hs]

/-- With an empty phase and a successful `StartVM`, `processVM` is the phase
stamp. -/
theorem processVM_start_ok {σ : Type} (env : Env σ) (obj : VM) (w : σ)
    (hp : obj.Status.Phase = "")
    (hs : (env.StartVM w (defaultDomain env obj)).2 = none) :
    processVM env obj w =
      stampPhase env (defaultDomain env obj) (env.StartVM w (defaultDomain env obj)).1
        [Call.StartVM (defaultDomain env obj)] := by
  simp [processVM, hp, hs]

/-- The cleanup when `GetRunningPods` answers an error. -/
theorem cleanup_list_failed {σ : Type} (env : Env σ) (vm : VM) (w : σ) (calls : List Call)
    (e : GoError) (hg : (env.GetRunningPods w vm).2 = Except.error e) :
    (cleanup env vm w calls).ret = some { Err := some e } ∧
    (cleanup env vm w calls).calls = calls ++ [Call.GetRunningPods vm] ∧
    (cleanup env vm w calls).world = (env.GetRunningPods w vm).1 := by
  simp [cleanup, hg]

/-- The cleanup when `GetRunningPods` answers a list: world, calls and result
are those of the loop over the pods. -/
theorem cleanup_listed {σ : Type} (env : Env σ) (vm : VM) (w : σ) (calls : List Call)
    (pods : List Pod) (hg : (env.GetRunningPods w vm).2 = Except.ok { Items := pods }) :
    (cleanup env vm w calls).world =
      (deletePods env vm pods (env.GetRunningPods w vm).1 (calls ++ [Call.GetRunningPods vm])
        [LogMsg.DefiningTargetPod] none).1 ∧
    (cleanup env vm w calls).calls =
      (deletePods env vm pods (env.GetRunningPods w vm).1 (calls ++ [Call.GetRunningPods vm])
        [LogMsg.DefiningTargetPod] none).2.1 ∧
    (cleanup env vm w calls).ret =
      some (match (deletePods env vm pods (env.GetRunningPods w vm).1
          (calls ++ [Call.GetRunningPods vm]) [LogMsg.DefiningTargetPod] none).2.2.2 with
        | LoopExit.Return e => e
        | LoopExit.Done err => { Err := err }) := by
  simp only [cleanup, hg]
  generalize deletePods env vm pods (env.GetRunningPods w vm).1
    (calls ++ [Call.GetRunningPods vm]) [LogMsg.DefiningTargetPod] none = r
  obtain ⟨w2, c2, l2, x2⟩ := r
  cases x2 <;> simp

/-- The cleanup never returns nil and never writes the VM: it lists the pods
and then only calls `DeleteVM`. -/
theorem cleanup_shape {σ : Type} (env : Env σ) (vm : VM) (w : σ) (calls : List Call) :
    (cleanup env vm w calls).ret ≠ none ∧
    ∃ m, (cleanup env vm w calls).calls =
      calls ++ Call.GetRunningPods vm :: List.replicate m (Call.DeleteVM vm) := by
  cases hg : (env.GetRunningPods w vm).2 with
  | error e =>
    obtain ⟨hr, hc, _⟩ := cleanup_list_failed env vm w calls e hg
    exact ⟨by rw [hr]; simp, 0, by rw [hc]; simp⟩
  | ok pl =>
    obtain ⟨_, hc, hr⟩ := cleanup_listed env vm w calls pl.Items hg
    obtain ⟨m, _, hm⟩ := deletePods_calls env vm pl.Items (env.GetRunningPods w vm).1
      (calls ++ [Call.GetRunningPods vm]) [LogMsg.DefiningTargetPod] none
    exact ⟨by rw [hr]; simp, m, by rw [hc, hm]; simp⟩

/-- The phase stamp issues one write, of the VM with phase `Scheduling`. -/
theorem stampPhase_calls {σ : Type} (env : Env σ) (vm : VM) (w : σ) (calls : List Call) :
    (stampPhase env vm w calls).calls =
      calls ++ [Call.Put "vms" vm.ObjectMeta.Name NamespaceDefault
        { vm with Status := { Phase := Scheduling } }] := by
  simp only [stampPhase]
  generalize env.Put w "vms" vm.ObjectMeta.Name NamespaceDefault
    { vm with Status := { Phase := Scheduling } } = r
  obtain ⟨w2, a⟩ := r
  cases a with
  | none => rfl
  | some err =>
    cases err with
    | StatusError reason msg => simp only []; split <;> rfl
    | Other msg => rfl

/-- The result of the phase stamp, by the answer of the write. -/
theorem stampPhase_ret {σ : Type} (env : Env σ) (vm : VM) (w : σ) (calls : List Call) :
    (stampPhase env vm w calls).ret =
      match (env.Put w "vms" vm.ObjectMeta.Name NamespaceDefault
          { vm with Status := { Phase := Scheduling } }).2 with
      | none => none
      | some (GoError.StatusError reason msg) =>
        if reason = StatusReasonNotFound ∨ reason = StatusReasonConflict then none
        else some { Err := some (GoError.StatusError reason msg) }
      | some (GoError.Other msg) => some { Err := some (GoError.Other msg) } := by
  simp only [stampPhase]
  generalize env.Put w "vms" vm.ObjectMeta.Name NamespaceDefault
    { vm with Status := { Phase := Scheduling } } = r
  obtain ⟨w2, a⟩ := r
  cases a with
  | none => rfl
  | some err =>
    cases err with
    | StatusError reason msg => simp only []; split <;> rfl
    | Other msg => rfl

/-- The defaulting keeps the metadata and the status of the VM. -/
theorem defaultDomain_meta {σ : Type} (env : Env σ) (vm : VM) :
    (defaultDomain env vm).ObjectMeta = vm.ObjectMeta ∧
    (defaultDomain env vm).Status = vm.Status := by
  exact ⟨rfl, rfl⟩

/-- The loop over the pods consults `DeleteVM` only. -/
theorem deletePods_congr {σ : Type} (env env2 : Env σ) (vm : VM)
    (h : env2.DeleteVM = env.DeleteVM) :
    ∀ (ps : List Pod) (w : σ) (c : List Call) (l : List LogMsg) (er : Option GoError),
      deletePods env2 vm ps w c l er = deletePods env vm ps w c l er := by
  intro ps
  induction ps with
  | nil => intro w c l er; rfl
  | cons p ps ih => intro w c l er; simp only [deletePods, h, ih]

/-- No write of the VM among the calls of a cleanup. -/
theorem no_put_in_cleanup_calls (vm : VM) (m : Nat) (c : Call)
    (hmem : c ∈ [Call.StartVM vm] ++
      Call.GetRunningPods vm :: List.replicate m (Call.DeleteVM vm)) :
    c.isPut = false := by
  rcases List.mem_append.1 hmem with h | h
  · rw [List.mem_singleton.1 h]; rfl
  · rcases List.mem_cons.1 h with h | h
    · rw [h]; rfl
    · rw [List.eq_of_mem_replicate h]; rfl

/-- With an empty phase, a failed `StartVM` and no pod listed, the requeue
returned wraps nil, whatever the error of `StartVM` was. -/
theorem processVM_start_failed_no_pods {σ : Type} (env : Env σ) (obj : VM) (w : σ)
    (e : GoError)
    (hp : obj.Status.Phase = "")
    (hs : (env.StartVM w (defaultDomain env obj)).2 = some e)
    (hg : (env.GetRunningPods (env.StartVM w (defaultDomain env obj)).1
      (defaultDomain env obj)).2 = Except.ok { Items := [] }) :
    (processVM env obj w).ret = some { Err := none } := by
  rw [processVM_start_failed env obj w e hp hs]
  obtain ⟨_, _, hr⟩ := cleanup_listed env (defaultDomain env obj)
    (env.StartVM w (defaultDomain env obj)).1 [Call.StartVM (defaultDomain env obj)] [] hg
  rw [hr]; rfl

/-! ## Lemmas on the VM store -/

/-- The entry just written is in the store. -/
theorem upsert_mem_self (k : String) (v : VM) :
    ∀ l : List (String × VM), (k, v) ∈ upsert k v l := by
  intro l
  induction l with
  | nil => simp [upsert]
  | cons x rest ih =>
    by_cases hx : x.1 = k
    · simp [upsert, hx]
    · simp only [upsert, hx, if_false]
      exact List.mem_cons_of_mem _ ih

/-- A write keeps every entry of another key, and every entry equal to the
one written. -/
theorem upsert_mem_of_mem (k : String) (v : VM) (e : String × VM) :
    ∀ l : List (String × VM), e ∈ l → (e.1 = k → e.2 = v) → e ∈ upsert k v l := by
  intro l
  induction l with
  | nil => intro he; cases he
  | cons x rest ih =>
    intro he hkv
    by_cases hk : e.1 = k
    · have : e = (k, v) := Prod.ext hk (hkv hk)
      rw [this]
      exact upsert_mem_self k v (x :: rest)
    · rcases List.mem_cons.1 he with h | h
      · have hx : ¬ x.1 = k := by rw [← h]; exact hk
        simp only [upsert, hx, if_false]
        rw [h]
        exact List.mem_cons_self _ _
      · by_cases hx : x.1 = k
        · simp only [upsert, hx, if_true]
          exact List.mem_cons_of_mem _ h
        · simp only [upsert, hx, if_false]
          exact List.mem_cons_of_mem _ (ih h hkv)

/-- The steps recorded by the seeding loop: one `Add` per domain, in order. -/
theorem seedVMStore_events (newRef : String → VM) (keyFunc : VM → Except GoError String) :
    ∀ (ds : List Domain) (s : BootState),
      (seedVMStore newRef keyFunc ds s).events =
        s.events ++ ds.map (fun d => BootEvent.VMStoreAdd (newRef d.ObjectMeta.Name)) := by
  intro ds
  induction ds with
  | nil => intro s; simp [seedVMStore]
  | cons d ds ih => intro s; simp [seedVMStore, ih]

/-- The seeding loop keeps the entry of a reference once it is stored under
its key, as long as two references with one key are one reference. -/
theorem seedVMStore_keeps (newRef : String → VM) (keyFunc : VM → Except GoError String)
    (hinj : ∀ a b, keyFunc (newRef a) = keyFunc (newRef b) → newRef a = newRef b)
    (n : String) (k : String) (hk : keyFunc (newRef n) = Except.ok k) :
    ∀ (ds : List Domain) (s : BootState),
      (k, newRef n) ∈ s.vmStore.items →
      (k, newRef n) ∈ (seedVMStore newRef keyFunc ds s).vmStore.items := by
  intro ds
  induction ds with
  | nil => intro s h; exact h
  | cons d ds ih =>
    intro s h
    simp only [seedVMStore]
    apply ih
    simp only [Store.Add]
    cases hd : keyFunc (newRef d.ObjectMeta.Name) with
    | error err => exact h
    | ok k2 =>
      apply upsert_mem_of_mem k2 (newRef d.ObjectMeta.Name) (k, newRef n) s.vmStore.items h
      intro hkk
      have hkk2 : k = k2 := hkk
      exact hinj n d.ObjectMeta.Name (by rw [hk, hd, hkk2])

/-- After the seeding loop every domain of the list has its reference in the
store, under the key of that reference. -/
theorem seedVMStore_adds (newRef : String → VM) (keyFunc : VM → Except GoError String)
    (hkey : ∀ n, ∃ k, keyFunc (newRef n) = Except.ok k)
    (hinj : ∀ a b, keyFunc (newRef a) = keyFunc (newRef b) → newRef a = newRef b) :
    ∀ (ds : List Domain) (s : BootState) (d : Domain), d ∈ ds →
      ∃ k, keyFunc (newRef d.ObjectMeta.Name) = Except.ok k ∧
        (k, newRef d.ObjectMeta.Name) ∈ (seedVMStore newRef keyFunc ds s).vmStore.items := by
  intro ds
  induction ds with
  | nil => intro s d hd; cases hd
  | cons x ds ih =>
    intro s d hd
    rcases List.mem_cons.1 hd with h | h
    · obtain ⟨k, hk⟩ := hkey x.ObjectMeta.Name
      rw [h]
      refine ⟨k, hk, ?_⟩
      simp only [seedVMStore]
      apply seedVMStore_keeps newRef keyFunc hinj x.ObjectMeta.Name k hk
      simp only [Store.Add, hk]
      exact upsert_mem_self k _ _
    · simp only [seedVMStore]
      exact ih _ d h

/-! ## The claims -/

/-- C1: for every VM whose phase is not empty, `processVM`, `OnAdd` and
`OnUpdate` return nil, call no collaborator (no `StartVM`, `GetRunningPods`,
`DeleteVM`, no write) and leave the world as it was, whatever the
collaborators would answer; a second invocation does the same. -/
theorem processVM_phase_set_is_noop {σ : Type} (env : Env σ) (oldObj obj : VM) (w : σ)
    (h : obj.Status.Phase ≠ "") :
    ((processVM env obj w).ret = none ∧ (processVM env obj w).calls = [] ∧
      (processVM env obj w).world = w) ∧
    ((OnAdd env obj w).ret = none ∧ (OnAdd env obj w).calls = []) ∧
    ((OnUpdate env oldObj obj w).ret = none ∧ (OnUpdate env oldObj obj w).calls = []) ∧
    ((processVM env obj (processVM env obj w).world).ret = none ∧
      (processVM env obj (processVM env obj w).world).calls = []) := by
  simp [OnAdd, OnUpdate, processVM, h]

/-- C1, at the VM `web-1` in phase `Scheduling`, with collaborators that
would all answer an error. -/
theorem processVM_phase_set_is_noop_witness :
    exVMScheduling.Status.Phase ≠ "" ∧
    ((processVM (exEnv (some (GoError.Other "start failed"))
        (Except.error (GoError.Other "list failed")) (some 0)
        (some (GoError.Other "put failed"))) exVMScheduling 0).ret = none ∧
      (processVM (exEnv (some (GoError.Other "start failed"))
        (Except.error (GoError.Other "list failed")) (some 0)
        (some (GoError.Other "put failed"))) exVMScheduling 0).calls = [] ∧
      (processVM (exEnv (some (GoError.Other "start failed"))
        (Except.error (GoError.Other "list failed")) (some 0)
        (some (GoError.Other "put failed"))) exVMScheduling 0).world = 0) :=
  ⟨by decide,
    (processVM_phase_set_is_noop (exEnv (some (GoError.Other "start failed"))
      (Except.error (GoError.Other "list failed")) (some 0)
      (some (GoError.Other "put failed"))) exVM exVMScheduling 0 (by decide)).1⟩

/-- C2: at the VM `web-1` with empty phase, when `StartVM` answers the error
`start failed` and `GetRunningPods` answers an empty list, `processVM` returns
a requeue whose wrapped error is nil, not the error of `StartVM`. -/
theorem processVM_no_pods_requeues_nil :
    exVM.Status.Phase = "" ∧
    ((exEnv (some (GoError.Other "start failed")) (Except.ok { Items := [] }) none
      none).StartVM 0 (defaultDomain (exEnv (some (GoError.Other "start failed"))
        (Except.ok { Items := [] }) none none) exVM)).2 = some (GoError.Other "start failed") ∧
    ((exEnv (some (GoError.Other "start failed")) (Except.ok { Items := [] }) none
      none).GetRunningPods 0 (defaultDomain (exEnv (some (GoError.Other "start failed"))
        (Except.ok { Items := [] }) none none) exVM)).2 = Except.ok { Items := [] } ∧
    (processVM (exEnv (some (GoError.Other "start failed")) (Except.ok { Items := [] })
      none none) exVM 0).calls =
      [Call.StartVM (defaultDomain (exEnv (some (GoError.Other "start failed"))
          (Except.ok { Items := [] }) none none) exVM),
        Call.GetRunningPods (defaultDomain (exEnv (some (GoError.Other "start failed"))
          (Except.ok { Items := [] }) none none) exVM)] ∧
    (processVM (exEnv (some (GoError.Other "start failed")) (Except.ok { Items := [] })
      none none) exVM 0).ret = some { Err := none } ∧
    (processVM (exEnv (some (GoError.Other "start failed")) (Except.ok { Items := [] })
      none none) exVM 0).ret ≠ some { Err := some (GoError.Other "start failed") } :=
  ⟨by decide, rfl, rfl, by decide, by decide, by decide⟩

/-- C3: for every VM with empty phase for which `StartVM` succeeds, by the
answer `ans` of the write: nil when `ans` is nil or a status error of reason
NotFound or Conflict; for every other error, a requeue wrapping exactly that
error. -/
theorem processVM_update_result {σ : Type} (env : Env σ) (obj : VM) (w : σ)
    (ans : Option GoError)
    (hp : obj.Status.Phase = "")
    (hs : (env.StartVM w (defaultDomain env obj)).2 = none)
    (hput : (env.Put (env.StartVM w (defaultDomain env obj)).1 "vms" obj.ObjectMeta.Name
      NamespaceDefault { defaultDomain env obj with Status := { Phase := Scheduling } }).2
        = ans) :
    (ans = none → (processVM env obj w).ret = none) ∧
    (∀ reason msg, ans = some (GoError.StatusError reason msg) →
      reason = StatusReasonNotFound ∨ reason = StatusReasonConflict →
      (processVM env obj w).ret = none) ∧
    (∀ err, ans = some err →
      (∀ msg, err ≠ GoError.StatusError StatusReasonNotFound msg ∧
        err ≠ GoError.StatusError StatusReasonConflict msg) →
      (processVM env obj w).ret = some { Err := some err }) := by
  have hput2 : (env.Put (env.StartVM w (defaultDomain env obj)).1 "vms"
      (defaultDomain env obj).ObjectMeta.Name NamespaceDefault
      { defaultDomain env obj with Status := { Phase := Scheduling } }).2 = ans := hput
  rw [processVM_start_ok env obj w hp hs, stampPhase_ret, hput2]
  refine ⟨?_, ?_, ?_⟩
  · intro h; subst h; rfl
  · intro reason msg h hr; subst h; simp [hr]
  · intro err h hne
    subst h
    cases err with
    | StatusError reason msg =>
      have h1 : reason ≠ StatusReasonNotFound := fun hh => (hne msg).1 (by rw [hh])
      have h2 : reason ≠ StatusReasonConflict := fun hh => (hne msg).2 (by rw [hh])
      simp [h1, h2]
    | Other msg => rfl

/-- C3, at `web-1` with a write answered by a status error of reason
`Forbidden`. -/
theorem processVM_update_result_witness :
    exVM.Status.Phase = "" ∧
    (processVM (exEnv none (Except.ok { Items := [] }) none
      (some (GoError.StatusError "Forbidden" "no"))) exVM 0).ret =
      some { Err := some (GoError.StatusError "Forbidden" "no") } :=
  ⟨by decide,
    (processVM_update_result (exEnv none (Except.ok { Items := [] }) none
      (some (GoError.StatusError "Forbidden" "no"))) exVM 0
      (some (GoError.StatusError "Forbidden" "no")) (by decide) (by decide) (by decide)).2.2
      (GoError.StatusError "Forbidden" "no") rfl
      (by intro msg; simp [StatusReasonNotFound, StatusReasonConflict])⟩


/-- C4 as stated fails: at the VM `web-1` with empty phase, in an environment
whose write always answers Conflict, `StartVM` fails and `processVM` returns a
requeue, not nil. -/
theorem processVM_conflict_env_start_failed_requeues :
    exVM.Status.Phase = "" ∧
    (∀ (w : Nat) (r n ns : String) (b : VM),
      ((exEnv (some (GoError.Other "start failed")) (Except.ok { Items := [] }) none
        (some (GoError.StatusError StatusReasonConflict "conflict"))).Put w r n ns b).2 =
        some (GoError.StatusError StatusReasonConflict "conflict")) ∧
    (processVM (exEnv (some (GoError.Other "start failed")) (Except.ok { Items := [] }) none
      (some (GoError.StatusError StatusReasonConflict "conflict"))) exVM 0).ret ≠ none :=
  ⟨by decide, fun _ _ _ _ _ => rfl, by decide⟩

/-- C4, amended: for every VM with empty phase, in an environment whose write
always answers a status error of reason Conflict or NotFound, `processVM`
returns nil when `StartVM` succeeds; when `StartVM` fails it issues no write
and returns a requeue. -/
theorem processVM_conflict_or_notfound {σ : Type} (env : Env σ) (obj : VM) (w : σ)
    (hp : obj.Status.Phase = "")
    (hput : ∀ (w2 : σ) (r n ns : String) (b : VM), ∃ reason msg,
      (env.Put w2 r n ns b).2 = some (GoError.StatusError reason msg) ∧
      (reason = StatusReasonNotFound ∨ reason = StatusReasonConflict)) :
    ((env.StartVM w (defaultDomain env obj)).2 = none → (processVM env obj w).ret = none) ∧
    ((env.StartVM w (defaultDomain env obj)).2 ≠ none →
      (processVM env obj w).ret ≠ none ∧
      ∀ c, c ∈ (processVM env obj w).calls → c.isPut = false) := by
  constructor
  · intro hs
    obtain ⟨reason, msg, ha, hr⟩ := hput (env.StartVM w (defaultDomain env obj)).1 "vms"
      (defaultDomain env obj).ObjectMeta.Name NamespaceDefault
      { defaultDomain env obj with Status := { Phase := Scheduling } }
    rw [processVM_start_ok env obj w hp hs, stampPhase_ret, ha]
    simp [hr]
  · intro hs
    cases he : (env.StartVM w (defaultDomain env obj)).2 with
    | none => exact absurd he hs
    | some e =>
      rw [processVM_start_failed env obj w e hp he]
      obtain ⟨hr, m, hc⟩ := cleanup_shape env (defaultDomain env obj)
        (env.StartVM w (defaultDomain env obj)).1 [Call.StartVM (defaultDomain env obj)]
      refine ⟨hr, ?_⟩
      intro c hmem
      rw [hc] at hmem
      exact no_put_in_cleanup_calls (defaultDomain env obj) m c hmem

/-- C4, amended, at `web-1` with a write that always answers NotFound, once
with `StartVM` succeeding (first component) and once failing (second). -/
theorem processVM_conflict_or_notfound_witness :
    exVM.Status.Phase = "" ∧
    (processVM (exEnv none (Except.ok { Items := [exLeftoverPod] }) none
      (some (GoError.StatusError StatusReasonNotFound "gone"))) exVM 0).ret = none ∧
    (processVM (exEnv (some (GoError.Other "start failed"))
      (Except.ok { Items := [exLeftoverPod] }) none
      (some (GoError.StatusError StatusReasonNotFound "gone"))) exVM 0).ret ≠ none :=
  ⟨by decide,
    (processVM_conflict_or_notfound (exEnv none (Except.ok { Items := [exLeftoverPod] }) none
      (some (GoError.StatusError StatusReasonNotFound "gone"))) exVM 0 (by decide)
      (fun _ _ _ _ _ => ⟨StatusReasonNotFound, "gone", rfl, Or.inl rfl⟩)).1 (by decide),
    ((processVM_conflict_or_notfound (exEnv (some (GoError.Other "start failed"))
      (Except.ok { Items := [exLeftoverPod] }) none
      (some (GoError.StatusError StatusReasonNotFound "gone"))) exVM 0 (by decide)
      (fun _ _ _ _ _ => ⟨StatusReasonNotFound, "gone", rfl, Or.inl rfl⟩)).2 (by decide)).1⟩

/-- C5: for every VM with empty phase, when `StartVM` fails, `GetRunningPods`
answers a list `pods` (non-empty, in particular) and every `DeleteVM` call
answers nil,
`processVM` calls `StartVM`, `GetRunningPods` and then `DeleteVM` on the VM
once per listed pod, issues no write, and returns a requeue (not nil); and
result, calls and world are the same for every other list of as many pods,
whatever their `kubevirt.io/vmUID` labels. -/
theorem processVM_cleanup_deletes_and_requeues {σ : Type} (env : Env σ) (obj : VM) (w : σ)
    (e : GoError) (pods : List Pod)
    (hp : obj.Status.Phase = "")
    (hs : (env.StartVM w (defaultDomain env obj)).2 = some e)
    (hg : (env.GetRunningPods (env.StartVM w (defaultDomain env obj)).1
      (defaultDomain env obj)).2 = Except.ok { Items := pods })
    (hd : ∀ i, i < pods.length →
      (env.DeleteVM (worldAfterDeletes env (defaultDomain env obj) i
        (env.GetRunningPods (env.StartVM w (defaultDomain env obj)).1
          (defaultDomain env obj)).1) (defaultDomain env obj)).2 = none) :
    (processVM env obj w).calls =
      [Call.StartVM (defaultDomain env obj), Call.GetRunningPods (defaultDomain env obj)]
        ++ List.replicate pods.length (Call.DeleteVM (defaultDomain env obj)) ∧
    (∀ c, c ∈ (processVM env obj w).calls → c.isPut = false) ∧
    (processVM env obj w).ret ≠ none ∧
    (∃ q, (processVM env obj w).ret = some q) ∧
    (∀ pods2 : List Pod, pods2.length = pods.length →
      (processVM (withPods env pods2) obj w).ret = (processVM env obj w).ret ∧
      (processVM (withPods env pods2) obj w).calls = (processVM env obj w).calls ∧
      (processVM (withPods env pods2) obj w).world = (processVM env obj w).world) := by
  have hcl := cleanup_listed env (defaultDomain env obj)
    (env.StartVM w (defaultDomain env obj)).1 [Call.StartVM (defaultDomain env obj)] pods hg
  obtain ⟨hw, hc, hr⟩ := hcl
  obtain ⟨aw, ac, ax⟩ := deletePods_all_ok env (defaultDomain env obj) pods
    (env.GetRunningPods (env.StartVM w (defaultDomain env obj)).1 (defaultDomain env obj)).1
    ([Call.StartVM (defaultDomain env obj)] ++ [Call.GetRunningPods (defaultDomain env obj)])
    [LogMsg.DefiningTargetPod] none hd
  have hcalls : (processVM env obj w).calls =
      [Call.StartVM (defaultDomain env obj), Call.GetRunningPods (defaultDomain env obj)]
        ++ List.replicate pods.length (Call.DeleteVM (defaultDomain env obj)) := by
    rw [processVM_start_failed env obj w e hp hs, hc, ac]; rfl
  have hret : (processVM env obj w).ret = some { Err := none } := by
    rw [processVM_start_failed env obj w e hp hs, hr, ax]; simp
  refine ⟨hcalls, ?_, by rw [hret]; simp, ⟨_, hret⟩, ?_⟩
  · intro c hmem
    rw [hcalls] at hmem
    exact no_put_in_cleanup_calls (defaultDomain env obj) pods.length c hmem
  · intro pods2 hlen
    have hs2 : ((withPods env pods2).StartVM w (defaultDomain (withPods env pods2) obj)).2
        = some e := hs
    have hg2 : ((withPods env pods2).GetRunningPods
        ((withPods env pods2).StartVM w (defaultDomain (withPods env pods2) obj)).1
        (defaultDomain (withPods env pods2) obj)).2 = Except.ok { Items := pods2 } := rfl
    obtain ⟨hw2, hc2, hr2⟩ := cleanup_listed (withPods env pods2)
      (defaultDomain (withPods env pods2) obj)
      ((withPods env pods2).StartVM w (defaultDomain (withPods env pods2) obj)).1
      [Call.StartVM (defaultDomain (withPods env pods2) obj)] pods2 hg2
    have hsame : ∀ (ps : List Pod) (w0 : σ) (c : List Call) (l : List LogMsg)
        (er : Option GoError),
        deletePods (withPods env pods2) (defaultDomain (withPods env pods2) obj) ps w0 c l er
          = deletePods env (defaultDomain env obj) ps w0 c l er :=
      deletePods_congr env (withPods env pods2) (defaultDomain env obj) rfl
    obtain ⟨lw, lc, lx⟩ := deletePods_length_only env (defaultDomain env obj) pods2 pods
      (env.GetRunningPods (env.StartVM w (defaultDomain env obj)).1 (defaultDomain env obj)).1
      ([Call.StartVM (defaultDomain env obj)] ++ [Call.GetRunningPods (defaultDomain env obj)])
      [LogMsg.DefiningTargetPod] [LogMsg.DefiningTargetPod] none hlen
    rw [processVM_start_failed (withPods env pods2) obj w e hp hs2,
      processVM_start_failed env obj w e hp hs]
    refine ⟨?_, ?_, ?_⟩
    · rw [hr2, hr, hsame]
      exact congrArg _ (by rw [← lx]; rfl)
    · rw [hc2, hc, hsame]; exact lc
    · rw [hw2, hw, hsame]; exact lw


/-- C5, at `web-1` (UID `abc`) with the leftover pod labelled `abc` listed,
compared with the orphan pod labelled `old` listed in its place. -/
theorem processVM_cleanup_deletes_and_requeues_witness :
    exVM.Status.Phase = "" ∧
    mapIndex exLeftoverPod.ObjectMeta.Labels "kubevirt.io/vmUID" = exVM.ObjectMeta.UID ∧
    mapIndex exOrphanPod.ObjectMeta.Labels "kubevirt.io/vmUID" ≠ exVM.ObjectMeta.UID ∧
    (processVM (exEnv (some (GoError.Other "start failed"))
      (Except.ok { Items := [exLeftoverPod] }) none none) exVM 0).calls =
      [Call.StartVM (defaultDomain (exEnv (some (GoError.Other "start failed"))
          (Except.ok { Items := [exLeftoverPod] }) none none) exVM),
        Call.GetRunningPods (defaultDomain (exEnv (some (GoError.Other "start failed"))
          (Except.ok { Items := [exLeftoverPod] }) none none) exVM)]
        ++ List.replicate [exLeftoverPod].length
          (Call.DeleteVM (defaultDomain (exEnv (some (GoError.Other "start failed"))
            (Except.ok { Items := [exLeftoverPod] }) none none) exVM)) ∧
    (processVM (exEnv (some (GoError.Other "start failed"))
      (Except.ok { Items := [exLeftoverPod] }) none none) exVM 0).ret ≠ none ∧
    (processVM (withPods (exEnv (some (GoError.Other "start failed"))
      (Except.ok { Items := [exLeftoverPod] }) none none) [exOrphanPod]) exVM 0).ret =
      (processVM (exEnv (some (GoError.Other "start failed"))
        (Except.ok { Items := [exLeftoverPod] }) none none) exVM 0).ret ∧
    (processVM (withPods (exEnv (some (GoError.Other "start failed"))
      (Except.ok { Items := [exLeftoverPod] }) none none) [exOrphanPod]) exVM 0).calls =
      (processVM (exEnv (some (GoError.Other "start failed"))
        (Except.ok { Items := [exLeftoverPod] }) none none) exVM 0).calls :=
  have h := processVM_cleanup_deletes_and_requeues
    (exEnv (some (GoError.Other "start failed")) (Except.ok { Items := [exLeftoverPod] })
      none none) exVM 0 (GoError.Other "start failed") [exLeftoverPod]
    (by decide) (by decide) rfl (by intro i _; rfl)
  ⟨by decide, by decide, by decide, h.1, h.2.2.1,
    (h.2.2.2.2 [exOrphanPod] rfl).1, (h.2.2.2.2 [exOrphanPod] rfl).2.1⟩

/-- C6: for every VM, whatever its phase, `OnDelete` calls `DeleteVM` on that
VM once and calls nothing else; it returns nil when `DeleteVM` answers nil and
a requeue wrapping the error of `DeleteVM` when it answers one, so that it
requeues if and only if `DeleteVM` fails. -/
theorem OnDelete_deletes_once {σ : Type} (env : Env σ) (obj : VM) (w : σ) :
    (OnDelete env obj w).calls = [Call.DeleteVM obj] ∧
    (OnDelete env obj w).world = (env.DeleteVM w obj).1 ∧
    ((env.DeleteVM w obj).2 = none → (OnDelete env obj w).ret = none) ∧
    (∀ e, (env.DeleteVM w obj).2 = some e →
      (OnDelete env obj w).ret = some { Err := some e }) ∧
    ((OnDelete env obj w).ret ≠ none ↔ (env.DeleteVM w obj).2 ≠ none) := by
  cases h : (env.DeleteVM w obj).2 with
  | none => simp [OnDelete, h]
  | some e => simp [OnDelete, h]

/-- C7: in every invocation of `processVM` at most one write of the VM is
issued; one is issued exactly when the phase of the input is empty and
`StartVM` succeeded; and every object written is the input VM with phase
`Scheduling`, the phase of the input being empty. -/
theorem processVM_writes_at_most_once {σ : Type} (env : Env σ) (obj : VM) (w : σ) :
    ((processVM env obj w).calls.filter Call.isPut).length ≤ 1 ∧
    (((processVM env obj w).calls.filter Call.isPut).length = 1 ↔
      (obj.Status.Phase = "" ∧ (env.StartVM w (defaultDomain env obj)).2 = none)) ∧
    (∀ r n ns body, Call.Put r n ns body ∈ (processVM env obj w).calls →
      obj.Status.Phase = "" ∧ body.Status.Phase = Scheduling ∧
      body.ObjectMeta = obj.ObjectMeta ∧ r = "vms" ∧ n = obj.ObjectMeta.Name) := by
  by_cases hp : obj.Status.Phase = ""
  · cases hs : (env.StartVM w (defaultDomain env obj)).2 with
    | none =>
      rw [processVM_start_ok env obj w hp hs, stampPhase_calls]
      refine ⟨by simp [Call.isPut], by simp [Call.isPut, hp], ?_⟩
      intro r n ns body hmem
      simp only [List.mem_append, List.mem_singleton, List.mem_cons, List.not_mem_nil,
        or_false] at hmem
      rcases hmem with h | h
      · cases h
      · cases h
        exact ⟨hp, rfl, rfl, rfl, rfl⟩
    | some e =>
      rw [processVM_start_failed env obj w e hp hs]
      obtain ⟨_, m, hc⟩ := cleanup_shape env (defaultDomain env obj)
        (env.StartVM w (defaultDomain env obj)).1 [Call.StartVM (defaultDomain env obj)]
      have hnone : ∀ c, c ∈ (cleanup env (defaultDomain env obj)
          (env.StartVM w (defaultDomain env obj)).1
          [Call.StartVM (defaultDomain env obj)]).calls → c.isPut = false := by
        intro c hmem
        rw [hc] at hmem
        exact no_put_in_cleanup_calls (defaultDomain env obj) m c hmem
      have hfil : (cleanup env (defaultDomain env obj)
          (env.StartVM w (defaultDomain env obj)).1
          [Call.StartVM (defaultDomain env obj)]).calls.filter Call.isPut = [] := by
        rw [List.filter_eq_nil_iff]
        intro c hmem
        rw [hnone c hmem]
        simp
      refine ⟨by rw [hfil]; simp, by rw [hfil]; simp, ?_⟩
      intro r n ns body hmem
      have := hnone _ hmem
      simp [Call.isPut] at this
  · refine ⟨by simp [processVM, hp], by simp [processVM, hp], ?_⟩
    intro r n ns body hmem
    simp [processVM, hp] at hmem


/-- C9: for every VM with empty phase, the first call of `processVM` is
`StartVM` on a VM `vm` with the metadata of the input and a domain
specification `d` (not nil) with `d.UUID` the UID of the VM, `d.Name` its name
and `d.Devices.Emulator` the path `/usr/local/bin/qemu-x86_64`; when the input
has no domain specification `d` is the minimal one for the name with these
three fields stamped, when it has one `d` is that one with the three fields
overwritten; and every later call, the write included, is made on `vm`. -/
theorem processVM_stamps_domain {σ : Type} (env : Env σ) (obj : VM) (w : σ)
    (hp : obj.Status.Phase = "") :
    ∃ vm d,
      (processVM env obj w).calls.head? = some (Call.StartVM vm) ∧
      vm.Spec.Domain = some d ∧ vm.ObjectMeta = obj.ObjectMeta ∧
      d.UUID = obj.ObjectMeta.UID ∧ d.Name = obj.ObjectMeta.Name ∧
      d.Devices.Emulator = "/usr/local/bin/qemu-x86_64" ∧
      (obj.Spec.Domain = none →
        d = { Name := obj.ObjectMeta.Name, UUID := obj.ObjectMeta.UID,
              Devices := { Emulator := "/usr/local/bin/qemu-x86_64",
                           Rest := (env.NewMinimalDomainSpec obj.ObjectMeta.Name).Devices.Rest },
              Rest := (env.NewMinimalDomainSpec obj.ObjectMeta.Name).Rest }) ∧
      (∀ d0, obj.Spec.Domain = some d0 →
        d = { Name := obj.ObjectMeta.Name, UUID := obj.ObjectMeta.UID,
              Devices := { Emulator := "/usr/local/bin/qemu-x86_64",
                           Rest := d0.Devices.Rest },
              Rest := d0.Rest }) ∧
      (∀ c, c ∈ (processVM env obj w).calls →
        c = Call.StartVM vm ∨ c = Call.GetRunningPods vm ∨ c = Call.DeleteVM vm ∨
        c = Call.Put "vms" obj.ObjectMeta.Name NamespaceDefault
          { vm with Status := { Phase := Scheduling } }) := by
  have hcalls : (processVM env obj w).calls.head? = some (Call.StartVM (defaultDomain env obj))
      ∧ ∀ c, c ∈ (processVM env obj w).calls →
        c = Call.StartVM (defaultDomain env obj) ∨
        c = Call.GetRunningPods (defaultDomain env obj) ∨
        c = Call.DeleteVM (defaultDomain env obj) ∨
        c = Call.Put "vms" obj.ObjectMeta.Name NamespaceDefault
          { defaultDomain env obj with Status := { Phase := Scheduling } } := by
    cases hs : (env.StartVM w (defaultDomain env obj)).2 with
    | none =>
      rw [processVM_start_ok env obj w hp hs, stampPhase_calls]
      refine ⟨rfl, ?_⟩
      intro c hmem
      rcases List.mem_append.1 hmem with h | h
      · exact Or.inl (List.mem_singleton.1 h)
      · exact Or.inr (Or.inr (Or.inr (List.mem_singleton.1 h)))
    | some e =>
      rw [processVM_start_failed env obj w e hp hs]
      obtain ⟨_, m, hc⟩ := cleanup_shape env (defaultDomain env obj)
        (env.StartVM w (defaultDomain env obj)).1 [Call.StartVM (defaultDomain env obj)]
      rw [hc]
      refine ⟨rfl, ?_⟩
      intro c hmem
      rcases List.mem_append.1 hmem with h | h
      · exact Or.inl (List.mem_singleton.1 h)
      · rcases List.mem_cons.1 h with h | h
        · exact Or.inr (Or.inl h)
        · exact Or.inr (Or.inr (Or.inl (List.eq_of_mem_replicate h)))
  cases hdm : obj.Spec.Domain with
  | none =>
    refine ⟨defaultDomain env obj,
      { Name := obj.ObjectMeta.Name, UUID := obj.ObjectMeta.UID,
        Devices := { Emulator := "/usr/local/bin/qemu-x86_64",
                     Rest := (env.NewMinimalDomainSpec obj.ObjectMeta.Name).Devices.Rest },
        Rest := (env.NewMinimalDomainSpec obj.ObjectMeta.Name).Rest },
      hcalls.1, ?_, rfl, rfl, rfl, rfl, ?_, ?_, hcalls.2⟩
    · simp [defaultDomain, hdm]
    · intro _; rfl
    · intro d0 h; cases h
  | some d1 =>
    refine ⟨defaultDomain env obj,
      { Name := obj.ObjectMeta.Name, UUID := obj.ObjectMeta.UID,
        Devices := { Emulator := "/usr/local/bin/qemu-x86_64", Rest := d1.Devices.Rest },
        Rest := d1.Rest },
      hcalls.1, ?_, rfl, rfl, rfl, rfl, ?_, ?_, hcalls.2⟩
    · simp [defaultDomain, hdm]
    · intro h; cases h
    · intro d0 h; cases h; rfl

/-- C9, at `web-1` with a domain specification of its own: the VM handed to
`StartVM` carries name, UID and emulator path stamped over the old values. -/
theorem processVM_stamps_domain_witness :
    exVMWithDomain.Status.Phase = "" ∧
    ∃ vm d,
      (processVM (exEnv none (Except.ok { Items := [] }) none none) exVMWithDomain 0).calls.head?
        = some (Call.StartVM vm) ∧
      vm.Spec.Domain = some d ∧
      d.UUID = "abc" ∧ d.Name = "web-1" ∧ d.Devices.Emulator = "/usr/local/bin/qemu-x86_64" :=
  ⟨by decide,
    match processVM_stamps_domain (exEnv none (Except.ok { Items := [] }) none none)
      exVMWithDomain 0 (by decide) with
    | ⟨vm, d, h1, h2, _, h4, h5, h6, _⟩ => ⟨vm, d, h1, h2, h4, h5, h6⟩⟩

/-- C10: for every VM with empty phase for which `StartVM` fails, the first
failing call of the cleanup ends the invocation.  When `GetRunningPods`
answers the error `e`, `processVM` returns a requeue wrapping `e` after the
calls `StartVM`, `GetRunningPods` and no `DeleteVM`.  When `DeleteVM` answers
nil for the pods before position `k` (from 0) and the error `e` for the pod at
position `k`, `processVM` returns a requeue wrapping `e` after exactly `k + 1`
calls of `DeleteVM`: none is made for the pods after position `k`. -/
theorem processVM_cleanup_first_failure_ends {σ : Type} (env : Env σ) (obj : VM) (w : σ)
    (e0 : GoError)
    (hp : obj.Status.Phase = "")
    (hs : (env.StartVM w (defaultDomain env obj)).2 = some e0) :
    (∀ e, (env.GetRunningPods (env.StartVM w (defaultDomain env obj)).1
        (defaultDomain env obj)).2 = Except.error e →
      (processVM env obj w).ret = some { Err := some e } ∧
      (processVM env obj w).calls =
        [Call.StartVM (defaultDomain env obj), Call.GetRunningPods (defaultDomain env obj)]) ∧
    (∀ (pods : List Pod) (k : Nat) (e : GoError),
      (env.GetRunningPods (env.StartVM w (defaultDomain env obj)).1
        (defaultDomain env obj)).2 = Except.ok { Items := pods } →
      k < pods.length →
      (∀ i, i < k →
        (env.DeleteVM (worldAfterDeletes env (defaultDomain env obj) i
          (env.GetRunningPods (env.StartVM w (defaultDomain env obj)).1
            (defaultDomain env obj)).1) (defaultDomain env obj)).2 = none) →
      (env.DeleteVM (worldAfterDeletes env (defaultDomain env obj) k
        (env.GetRunningPods (env.StartVM w (defaultDomain env obj)).1
          (defaultDomain env obj)).1) (defaultDomain env obj)).2 = some e →
      (processVM env obj w).ret = some { Err := some e } ∧
      (processVM env obj w).calls =
        [Call.StartVM (defaultDomain env obj), Call.GetRunningPods (defaultDomain env obj)]
          ++ List.replicate (k + 1) (Call.DeleteVM (defaultDomain env obj))) := by
  rw [processVM_start_failed env obj w e0 hp hs]
  constructor
  · intro e hg
    obtain ⟨hr, hc, _⟩ := cleanup_list_failed env (defaultDomain env obj)
      (env.StartVM w (defaultDomain env obj)).1 [Call.StartVM (defaultDomain env obj)] e hg
    exact ⟨hr, by rw [hc]; rfl⟩
  · intro pods k e hg hk hok hfail
    obtain ⟨_, hc, hr⟩ := cleanup_listed env (defaultDomain env obj)
      (env.StartVM w (defaultDomain env obj)).1 [Call.StartVM (defaultDomain env obj)] pods hg
    obtain ⟨_, fc, fx⟩ := deletePods_fail_at env (defaultDomain env obj) e pods k
      (env.GetRunningPods (env.StartVM w (defaultDomain env obj)).1 (defaultDomain env obj)).1
      ([Call.StartVM (defaultDomain env obj)] ++ [Call.GetRunningPods (defaultDomain env obj)])
      [LogMsg.DefiningTargetPod] none hk hok hfail
    exact ⟨by rw [hr, fx], by rw [hc, fc]; rfl⟩

/-- C10, at `web-1` with three pods listed and the second `DeleteVM` call
failing: two calls of `DeleteVM` are made, none for the third pod. -/
theorem processVM_cleanup_first_failure_ends_witness :
    exVM.Status.Phase = "" ∧
    (processVM (exEnv (some (GoError.Other "start failed"))
      (Except.ok { Items := [exLeftoverPod, exOrphanPod, exLeftoverPod] }) (some 1) none)
      exVM 0).ret = some { Err := some (GoError.Other "delete failed") } ∧
    (processVM (exEnv (some (GoError.Other "start failed"))
      (Except.ok { Items := [exLeftoverPod, exOrphanPod, exLeftoverPod] }) (some 1) none)
      exVM 0).calls =
      [Call.StartVM (defaultDomain (exEnv (some (GoError.Other "start failed"))
          (Except.ok { Items := [exLeftoverPod, exOrphanPod, exLeftoverPod] }) (some 1) none)
          exVM),
        Call.GetRunningPods (defaultDomain (exEnv (some (GoError.Other "start failed"))
          (Except.ok { Items := [exLeftoverPod, exOrphanPod, exLeftoverPod] }) (some 1) none)
          exVM)]
        ++ List.replicate (1 + 1)
          (Call.DeleteVM (defaultDomain (exEnv (some (GoError.Other "start failed"))
            (Except.ok { Items := [exLeftoverPod, exOrphanPod, exLeftoverPod] }) (some 1)
            none) exVM)) :=
  ⟨by decide,
    (processVM_cleanup_first_failure_ends (exEnv (some (GoError.Other "start failed"))
      (Except.ok { Items := [exLeftoverPod, exOrphanPod, exLeftoverPod] }) (some 1) none)
      exVM 0 (GoError.Other "start failed") (by decide) (by decide)).2
      [exLeftoverPod, exOrphanPod, exLeftoverPod] 1 (GoError.Other "delete failed") rfl
      (by decide) (by decide) (by decide)⟩


/-- C8: when the key function of the VM store answers a key for every
reference built from a name, and two such references with one key are one
reference, then after the seeding loop the VM store holds, for every domain of
the list answered by the synced domain cache, the reference built from the
name of that domain; the steps up to there are the warm-up and one `Add` per
domain, none of them the start of a controller; and the bootstrapping then
starts the two controllers on that very store. -/
theorem bootstrapping_seeds_every_domain (NewVMReferenceFromName : String → VM)
    (keyFunc : VM → Except GoError String) (domains : List Domain) (s : BootState)
    (hkey : ∀ n, ∃ k, keyFunc (NewVMReferenceFromName n) = Except.ok k)
    (hinj : ∀ a b, keyFunc (NewVMReferenceFromName a) = keyFunc (NewVMReferenceFromName b) →
      NewVMReferenceFromName a = NewVMReferenceFromName b) :
    (∀ d, d ∈ domains → NewVMReferenceFromName d.ObjectMeta.Name ∈
      (seedVMStore NewVMReferenceFromName keyFunc domains (warmup s)).vmStore.List) ∧
    (seedVMStore NewVMReferenceFromName keyFunc domains (warmup s)).events =
      s.events ++
        [BootEvent.RunDomainCache, BootEvent.WaitForCacheSync, BootEvent.CloseStopWarmup] ++
        domains.map (fun d => BootEvent.VMStoreAdd (NewVMReferenceFromName d.ObjectMeta.Name)) ∧
    bootstrapping NewVMReferenceFromName keyFunc domains s =
      { vmStore := (seedVMStore NewVMReferenceFromName keyFunc domains (warmup s)).vmStore,
        events := (seedVMStore NewVMReferenceFromName keyFunc domains (warmup s)).events ++
          [BootEvent.RunDomainController, BootEvent.RunVMController] } ∧
    (∀ d, d ∈ domains → NewVMReferenceFromName d.ObjectMeta.Name ∈
      (bootstrapping NewVMReferenceFromName keyFunc domains s).vmStore.List) := by
  have hall : ∀ d, d ∈ domains → NewVMReferenceFromName d.ObjectMeta.Name ∈
      (seedVMStore NewVMReferenceFromName keyFunc domains (warmup s)).vmStore.List := by
    intro d hd
    obtain ⟨k, _, hmem⟩ := seedVMStore_adds NewVMReferenceFromName keyFunc hkey hinj domains
      (warmup s) d hd
    exact List.mem_map.2 ⟨(k, NewVMReferenceFromName d.ObjectMeta.Name), hmem, rfl⟩
  refine ⟨hall, ?_, rfl, hall⟩
  rw [seedVMStore_events]
  rfl

/-- C8, with the domains `a`, `b` and `a` again in the cache, an empty store
and the key made of namespace and name. -/
theorem bootstrapping_seeds_every_domain_witness :
    (∀ d, d ∈ [exDomain "a", exDomain "b", exDomain "a"] →
      exNewVMReferenceFromName d.ObjectMeta.Name ∈
        (seedVMStore exNewVMReferenceFromName exKeyFunc
          [exDomain "a", exDomain "b", exDomain "a"]
          (warmup { vmStore := { items := [] }, events := [] })).vmStore.List) ∧
    (seedVMStore exNewVMReferenceFromName exKeyFunc
      [exDomain "a", exDomain "b", exDomain "a"]
      (warmup { vmStore := { items := [] }, events := [] })).vmStore.List =
      [exNewVMReferenceFromName "a", exNewVMReferenceFromName "b"] :=
  ⟨(bootstrapping_seeds_every_domain exNewVMReferenceFromName exKeyFunc
      [exDomain "a", exDomain "b", exDomain "a"] { vmStore := { items := [] }, events := [] }
      (fun n => ⟨"default" ++ "/" ++ n, rfl⟩)
      (by
        intro a b h
        simp only [exKeyFunc, exNewVMReferenceFromName, Except.ok.injEq] at h
        have h3 := congrArg String.data h
        simp only [String.data_append, List.append_cancel_left_eq] at h3
        rw [String.ext h3])).1,
    by decide⟩


end Kubevirt
